import Mathlib

/-!
Shallow embedding of `src/scripts/gameOfLife.js` (an interactive Conway's
Game of Life visualizer on a toroidal grid) together with theorems checking
the natural-language specification against it.

Modelling conventions:
* A JS cell `{ alive, color, fade }` becomes the structure `Cell`.
  `alive` is kept as a number (the source stores `1`/`0` and both tests
  `cell.alive === 1` and truthiness `if (cell.alive)`), `fade` as a natural
  number (the source only ever stores 0..10 and decrements under a
  `fade > 0` guard).
* The JS grid `grid[x][y]` (an array of `cols` columns of `rows` cells)
  becomes a structure with dimensions and a cell-valued function; the
  per-cell loops of the source become pointwise definitions guarded by the
  loop bounds `x < cols ∧ y < rows`.
* `Math.random()` is modelled by explicit oracles: color draws take the raw
  natural-number draw as an argument (`getRandomColor`), and call sites that
  draw a fresh color per cell take an oracle `rnd : Nat → Nat → Nat` giving
  the draw used at that cell.
* Pixel coordinates (JS floating-point numbers) are modelled as rationals;
  `Math.floor` is `Int.floor`.
-/

namespace GameOfLife

/-- An HSL color. The source stores the CSS string
`hsl(hue, 100%, 70%)`; we keep the three numeric components. -/
structure Color where
  hue : Nat
  sat : Nat
  light : Nat
deriving DecidableEq

/-- `getRandomColor` (source lines 14-17): `hue = Math.floor(Math.random() * 360)`,
full saturation, 70% lightness. `Math.random()` lies in `[0,1)`, so the hue
lies in `[0,360)`; the random draw is modelled as an arbitrary natural
number reduced mod 360, which realizes exactly the same range. -/
def getRandomColor (draw : Nat) : Color :=
  { hue := draw % 360, sat := 100, light := 70 }

/-- One grid cell: `{ alive, color, fade }` (source lines 31-35). -/
structure Cell where
  alive : Nat
  color : Color
  fade : Nat
deriving DecidableEq

/-- The grid `grid[x][y]`: `cols` columns by `rows` rows of cells
(source line 30). Cells are read through a total function; only indices
with `x < cols ∧ y < rows` correspond to JS array slots, and every
operation below touches only those. -/
structure Grid where
  cols : Nat
  rows : Nat
  cells : Nat → Nat → Cell

/-- Toroidal index arithmetic of `countNeighbors` (source lines 120-121):
`(x + i + cols) % cols` computed in JS numbers, where `0 ≤ x < cols` and
`i ∈ {-1,0,1}`, so the operand of `%` is nonnegative and JS `%` agrees
with Euclidean mod. -/
def wrap (n : Nat) (x : Nat) (d : Int) : Nat :=
  (((x : Int) + d + (n : Int)) % (n : Int)).toNat

/-- The eight neighbor offsets visited by the double loop of
`countNeighbors` (source lines 117-123), in loop order, with `(0,0)`
skipped by the `continue`. -/
def neighborOffsets : List (Int × Int) :=
  [(-1, -1), (-1, 0), (-1, 1), (0, -1), (0, 1), (1, -1), (1, 0), (1, 1)]

/-- `countNeighbors(x, y)` (source lines 115-126): sum of `alive` over the
eight toroidally wrapped neighbor positions. -/
def countNeighbors (g : Grid) (x y : Nat) : Nat :=
  (neighborOffsets.map fun d =>
    (g.cells (wrap g.cols x d.1) (wrap g.rows y d.2)).alive).sum

/-- The per-cell body of `updateGrid`'s loop (source lines 93-107), acting on
the cloned cell `next[x][y]` (which starts equal to `grid[x][y]`):
a live cell (`alive === 1`) with fewer than 2 or more than 3 neighbors dies
with `fade = 10`; a dead cell with exactly 3 neighbors is born with a fresh
random color and `fade = 0`; all other cells keep the cloned value. -/
def stepCell (rnd : Nat → Nat → Nat) (g : Grid) (x y : Nat) : Cell :=
  if (g.cells x y).alive = 1 then
    if countNeighbors g x y < 2 ∨ 3 < countNeighbors g x y then
      { g.cells x y with alive := 0, fade := 10 }
    else
      g.cells x y
  else
    if countNeighbors g x y = 3 then
      { g.cells x y with alive := 1, color := getRandomColor (rnd x y), fade := 0 }
    else
      g.cells x y

/-- `updateGrid()` (source lines 88-112): deep-clones the grid, rewrites the
in-bounds cells by the rule above, and replaces `grid` with the result.
`rnd x y` is the random draw used if a birth occurs at `(x,y)`. -/
def updateGrid (rnd : Nat → Nat → Nat) (g : Grid) : Grid :=
  { cols := g.cols
    rows := g.rows
    cells := fun x y =>
      if x < g.cols ∧ y < g.rows then stepCell rnd g x y else g.cells x y }

/-- The state effect of `drawGrid`'s per-cell body on one cell (source lines
46-80): a live cell is painted and left unchanged; a dead cell with
`fade > 0` is painted faded and its `fade` is decremented by 1; a dead cell
with `fade = 0` is skipped. -/
def drawCell (c : Cell) : Cell :=
  if c.alive ≠ 0 then c
  else if 0 < c.fade then { c with fade := c.fade - 1 }
  else c

/-- `drawGrid()` (source lines 40-85) restricted to its effect on the grid
state: the canvas painting is external output; the only state mutation is
`cell.fade -= 1` on dead cells with positive fade, applied to every
in-bounds cell. -/
def drawGrid (g : Grid) : Grid :=
  { g with cells := fun x y =>
      if x < g.cols ∧ y < g.rows then drawCell (g.cells x y) else g.cells x y }

/-! ### Spec-side neighbor count (for the refinement claim C1)

The spec (section 4.3) words the neighbor count as: sum of `alive` over the
8 cells at toroidal offsets `(x+i mod cols, y+j mod rows)` for
`i,j ∈ {-1,0,1}`, excluding `(0,0)`. The following definitions transcribe
those words (`mod` read as mathematical, i.e. Euclidean, mod). -/

/-- Spec wording: offsets `i,j ∈ {-1,0,1}` excluding `(0,0)`. -/
def specOffsets : List (Int × Int) :=
  (([-1, 0, 1] : List Int).product [-1, 0, 1]).filter (fun d => d ≠ ((0 : Int), (0 : Int)))

/-- Spec wording: the wrapped position `x + i mod cols`. -/
def wrapSpec (n : Nat) (x : Nat) (d : Int) : Nat :=
  (((x : Int) + d) % (n : Int)).toNat

/-- Spec wording of the neighbor count (section 4.3, first bullet). -/
def specNeighborCount (g : Grid) (x y : Nat) : Nat :=
  (specOffsets.map fun d =>
    (g.cells (wrapSpec g.cols x d.1) (wrapSpec g.rows y d.2)).alive).sum

/-! ### Helper lemmas about wrapping -/

theorem wrap_eq_wrapSpec (n x : Nat) (d : Int) : wrap n x d = wrapSpec n x d := by
  unfold wrap wrapSpec
  have h : ((x : Int) + d + (n : Int)) = ((x : Int) + d) + (n : Int) * 1 := by ring
  rw [h, Int.add_mul_emod_self_left]

theorem wrap_zero_neg_one (n : Nat) (h : 0 < n) : wrap n 0 (-1) = n - 1 := by
  unfold wrap
  have h1 : ((0 : Nat) : Int) + (-1) + (n : Int) = (n : Int) - 1 := by push_cast; ring
  rw [h1, Int.emod_eq_of_lt (by omega) (by omega)]
  omega

theorem updateGrid_cells (rnd : Nat → Nat → Nat) (g : Grid) (x y : Nat)
    (hx : x < g.cols) (hy : y < g.rows) :
    (updateGrid rnd g).cells x y = stepCell rnd g x y := by
  unfold updateGrid
  exact if_pos ⟨hx, hy⟩

theorem drawGrid_cells (g : Grid) (x y : Nat) (hx : x < g.cols) (hy : y < g.rows) :
    (drawGrid g).cells x y = drawCell (g.cells x y) := by
  unfold drawGrid
  exact if_pos ⟨hx, hy⟩

/-! ### Concrete grids used as witnesses -/

def baseColor : Color := ⟨200, 100, 70⟩

def liveCell : Cell := ⟨1, baseColor, 0⟩

def deadCell : Cell := ⟨0, baseColor, 0⟩

/-- A 5×5 grid holding a horizontal blinker in row 2 (cells (1,2),(2,2),(3,2)). -/
def blinkerGrid : Grid :=
  ⟨5, 5, fun x y => if (x = 1 ∨ x = 2 ∨ x = 3) ∧ y = 2 then liveCell else deadCell⟩

/-- A 3×3 grid with every cell alive. -/
def allLive3 : Grid := ⟨3, 3, fun _ _ => liveCell⟩

/-- A fixed random oracle used by the witnesses. -/
def rnd0 : Nat → Nat → Nat := fun _ _ => 42

/-! ### C1: the neighbor count is the toroidal 8-neighbor sum -/

/-- C1. The neighbor count used by the transition engine agrees with the
spec's formula (sum of `alive` over the 8 offsets `i,j ∈ {-1,0,1}` minus
`(0,0)`, at positions `(x+i mod cols, y+j mod rows)`), and a live cell at
`(cols-1, rows-1)` is counted as a neighbor of the cell at `(0,0)`. -/
theorem countNeighbors_matches_spec :
    (∀ (g : Grid) (x y : Nat), countNeighbors g x y = specNeighborCount g x y) ∧
    (∀ g : Grid, 0 < g.cols → 0 < g.rows →
      (g.cells (g.cols - 1) (g.rows - 1)).alive = 1 → 1 ≤ countNeighbors g 0 0) := by
  constructor
  · intro g x y
    have hoff : specOffsets = neighborOffsets := by decide
    unfold countNeighbors specNeighborCount
    rw [hoff]
    simp only [wrap_eq_wrapSpec]
  · intro g hc hr ha
    unfold countNeighbors neighborOffsets
    simp only [List.map_cons, List.map_nil, List.sum_cons, List.sum_nil]
    rw [wrap_zero_neg_one g.cols hc, wrap_zero_neg_one g.rows hr]
    omega

theorem countNeighbors_matches_spec_witness :
    0 < allLive3.cols ∧ 0 < allLive3.rows ∧
    (allLive3.cells (allLive3.cols - 1) (allLive3.rows - 1)).alive = 1 ∧
    1 ≤ countNeighbors allLive3 0 0 :=
  ⟨by decide, by decide, by decide,
   countNeighbors_matches_spec.2 allLive3 (by decide) (by decide) (by decide)⟩

/-! ### C2: underpopulation and overpopulation kill, fade 10, color kept -/

/-- C2. A live cell with fewer than 2 or more than 3 live neighbors is dead
in the next grid, with `fade = 10` and its color unchanged. -/
theorem step_underOverpopulation_dies (rnd : Nat → Nat → Nat) (g : Grid) (x y : Nat)
    (hx : x < g.cols) (hy : y < g.rows)
    (halive : (g.cells x y).alive = 1)
    (hn : countNeighbors g x y < 2 ∨ 3 < countNeighbors g x y) :
    ((updateGrid rnd g).cells x y).alive = 0 ∧
    ((updateGrid rnd g).cells x y).fade = 10 ∧
    ((updateGrid rnd g).cells x y).color = (g.cells x y).color := by
  have h : (updateGrid rnd g).cells x y = { g.cells x y with alive := 0, fade := 10 } := by
    rw [updateGrid_cells rnd g x y hx hy]
    unfold stepCell
    rw [if_pos halive, if_pos hn]
  rw [h]
  exact ⟨rfl, rfl, rfl⟩

theorem step_underOverpopulation_dies_witness :
    (blinkerGrid.cells 1 2).alive = 1 ∧ countNeighbors blinkerGrid 1 2 < 2 ∧
    ((updateGrid rnd0 blinkerGrid).cells 1 2).alive = 0 ∧
    ((updateGrid rnd0 blinkerGrid).cells 1 2).fade = 10 ∧
    ((updateGrid rnd0 blinkerGrid).cells 1 2).color = (blinkerGrid.cells 1 2).color := by
  refine ⟨by decide, by decide, ?_⟩
  exact step_underOverpopulation_dies rnd0 blinkerGrid 1 2 (by decide) (by decide)
    (by decide) (Or.inl (by decide))

/-! ### C3: birth on exactly three neighbors, fresh random color -/

/-- C3. A dead cell with exactly 3 live neighbors is alive in the next grid,
with `fade = 0` and the freshly drawn random color: full saturation, 70%
lightness, hue in `[0, 360)`. -/
theorem step_birth_on_three (rnd : Nat → Nat → Nat) (g : Grid) (x y : Nat)
    (hx : x < g.cols) (hy : y < g.rows)
    (hdead : (g.cells x y).alive = 0)
    (hn : countNeighbors g x y = 3) :
    ((updateGrid rnd g).cells x y).alive = 1 ∧
    ((updateGrid rnd g).cells x y).fade = 0 ∧
    ((updateGrid rnd g).cells x y).color = getRandomColor (rnd x y) ∧
    ((updateGrid rnd g).cells x y).color.sat = 100 ∧
    ((updateGrid rnd g).cells x y).color.light = 70 ∧
    ((updateGrid rnd g).cells x y).color.hue < 360 := by
  have hne : ¬ (g.cells x y).alive = 1 := by omega
  have h : (updateGrid rnd g).cells x y =
      { g.cells x y with alive := 1, color := getRandomColor (rnd x y), fade := 0 } := by
    rw [updateGrid_cells rnd g x y hx hy]
    unfold stepCell
    rw [if_neg hne, if_pos hn]
  rw [h]
  refine ⟨rfl, rfl, rfl, rfl, rfl, ?_⟩
  exact Nat.mod_lt _ (by norm_num)

theorem step_birth_on_three_witness :
    (blinkerGrid.cells 2 1).alive = 0 ∧ countNeighbors blinkerGrid 2 1 = 3 ∧
    ((updateGrid rnd0 blinkerGrid).cells 2 1).alive = 1 ∧
    ((updateGrid rnd0 blinkerGrid).cells 2 1).fade = 0 ∧
    ((updateGrid rnd0 blinkerGrid).cells 2 1).color = getRandomColor (rnd0 2 1) := by
  refine ⟨by decide, by decide, ?_⟩
  have h := step_birth_on_three rnd0 blinkerGrid 2 1 (by decide) (by decide)
    (by decide) (by decide)
  exact ⟨h.1, h.2.1, h.2.2.1⟩

/-! ### C4: survival on two or three neighbors -/

/-- C4. A live cell with exactly 2 or 3 live neighbors stays alive in the
next grid, with color and fade unchanged. -/
theorem step_survival_two_or_three (rnd : Nat → Nat → Nat) (g : Grid) (x y : Nat)
    (hx : x < g.cols) (hy : y < g.rows)
    (halive : (g.cells x y).alive = 1)
    (hn : countNeighbors g x y = 2 ∨ countNeighbors g x y = 3) :
    ((updateGrid rnd g).cells x y).alive = 1 ∧
    ((updateGrid rnd g).cells x y).color = (g.cells x y).color ∧
    ((updateGrid rnd g).cells x y).fade = (g.cells x y).fade := by
  have hno : ¬ (countNeighbors g x y < 2 ∨ 3 < countNeighbors g x y) := by omega
  have h : (updateGrid rnd g).cells x y = g.cells x y := by
    rw [updateGrid_cells rnd g x y hx hy]
    unfold stepCell
    rw [if_pos halive, if_neg hno]
  rw [h]
  exact ⟨halive, rfl, rfl⟩

theorem step_survival_two_or_three_witness :
    (blinkerGrid.cells 2 2).alive = 1 ∧ countNeighbors blinkerGrid 2 2 = 2 ∧
    ((updateGrid rnd0 blinkerGrid).cells 2 2).alive = 1 ∧
    ((updateGrid rnd0 blinkerGrid).cells 2 2).color = (blinkerGrid.cells 2 2).color ∧
    ((updateGrid rnd0 blinkerGrid).cells 2 2).fade = (blinkerGrid.cells 2 2).fade := by
  refine ⟨by decide, by decide, ?_⟩
  exact step_survival_two_or_three rnd0 blinkerGrid 2 2 (by decide) (by decide)
    (by decide) (Or.inl (by decide))

/-! ### C5: a dead cell without exactly three neighbors is untouched -/

/-- C5. A dead cell with neighbor count different from 3 is identical in the
next grid in all fields; in particular the transition never decrements
`fade` (fade decay happens only in the render pass). -/
theorem step_dead_non_three_unchanged (rnd : Nat → Nat → Nat) (g : Grid) (x y : Nat)
    (hx : x < g.cols) (hy : y < g.rows)
    (hdead : (g.cells x y).alive = 0)
    (hn : countNeighbors g x y ≠ 3) :
    (updateGrid rnd g).cells x y = g.cells x y := by
  have hne : ¬ (g.cells x y).alive = 1 := by omega
  rw [updateGrid_cells rnd g x y hx hy]
  unfold stepCell
  rw [if_neg hne, if_neg hn]

theorem step_dead_non_three_unchanged_witness :
    (blinkerGrid.cells 0 0).alive = 0 ∧ countNeighbors blinkerGrid 0 0 ≠ 3 ∧
    (updateGrid rnd0 blinkerGrid).cells 0 0 = blinkerGrid.cells 0 0 := by
  refine ⟨by decide, by decide, ?_⟩
  exact step_dead_non_three_unchanged rnd0 blinkerGrid 0 0 (by decide) (by decide)
    (by decide) (by decide)

/-! ### C6: the render pass decays fade on dead cells -/

theorem drawGrid_cols (g : Grid) : (drawGrid g).cols = g.cols := rfl

theorem drawGrid_rows (g : Grid) : (drawGrid g).rows = g.rows := rfl

theorem iterate_drawGrid_cols (g : Grid) (n : Nat) : (drawGrid^[n] g).cols = g.cols := by
  induction n with
  | zero => rfl
  | succ n ih => rw [Function.iterate_succ_apply', drawGrid_cols, ih]

theorem iterate_drawGrid_rows (g : Grid) (n : Nat) : (drawGrid^[n] g).rows = g.rows := by
  induction n with
  | zero => rfl
  | succ n ih => rw [Function.iterate_succ_apply', drawGrid_rows, ih]

theorem iterate_drawGrid_dead_cell (g : Grid) (x y : Nat)
    (hx : x < g.cols) (hy : y < g.rows) (hdead : (g.cells x y).alive = 0) :
    ∀ n : Nat, (drawGrid^[n] g).cells x y =
      { g.cells x y with fade := (g.cells x y).fade - n } := by
  intro n
  induction n with
  | zero => rfl
  | succ n ih =>
    rw [Function.iterate_succ_apply']
    have hx' : x < (drawGrid^[n] g).cols := by rw [iterate_drawGrid_cols]; exact hx
    have hy' : y < (drawGrid^[n] g).rows := by rw [iterate_drawGrid_rows]; exact hy
    rw [drawGrid_cells _ x y hx' hy', ih]
    unfold drawCell
    have hno : ¬ ({ g.cells x y with fade := (g.cells x y).fade - n } : Cell).alive ≠ 0 := by
      simp [hdead]
    rw [if_neg hno]
    by_cases hf : 0 < (g.cells x y).fade - n
    · rw [if_pos hf]
      have : (g.cells x y).fade - n - 1 = (g.cells x y).fade - (n + 1) := by omega
      simp only [this]
    · rw [if_neg hf]
      have : (g.cells x y).fade - n = (g.cells x y).fade - (n + 1) := by omega
      simp only [this]

/-- C6. One render pass decrements the fade of every in-bounds dead cell with
positive fade by exactly 1, leaves alive cells and dead cells with zero fade
unchanged, and after exactly `fade` render passes a dead cell's fade is 0. -/
theorem draw_fade_decay (g : Grid) (x y : Nat) (hx : x < g.cols) (hy : y < g.rows) :
    ((g.cells x y).alive ≠ 0 → (drawGrid g).cells x y = g.cells x y) ∧
    ((g.cells x y).alive = 0 → (g.cells x y).fade = 0 →
      (drawGrid g).cells x y = g.cells x y) ∧
    ((g.cells x y).alive = 0 → 0 < (g.cells x y).fade →
      (drawGrid g).cells x y = { g.cells x y with fade := (g.cells x y).fade - 1 }) ∧
    ((g.cells x y).alive = 0 →
      ((drawGrid^[(g.cells x y).fade] g).cells x y).fade = 0) := by
  refine ⟨?_, ?_, ?_, ?_⟩
  · intro ha
    rw [drawGrid_cells g x y hx hy]
    unfold drawCell
    rw [if_pos ha]
  · intro ha hf
    rw [drawGrid_cells g x y hx hy]
    unfold drawCell
    rw [if_neg (by simp [ha]), if_neg (by omega)]
  · intro ha hf
    rw [drawGrid_cells g x y hx hy]
    unfold drawCell
    rw [if_neg (by simp [ha]), if_pos hf]
  · intro ha
    rw [iterate_drawGrid_dead_cell g x y hx hy ha]
    simp

/-- A 2×2 grid whose corner cell is dead and fading with `fade = 3`. -/
def fadeGrid : Grid :=
  ⟨2, 2, fun x y => if x = 0 ∧ y = 0 then ⟨0, baseColor, 3⟩ else deadCell⟩

theorem draw_fade_decay_witness :
    (fadeGrid.cells 0 0).alive = 0 ∧ (fadeGrid.cells 0 0).fade = 3 ∧
    ((drawGrid^[(fadeGrid.cells 0 0).fade] fadeGrid).cells 0 0).fade = 0 :=
  ⟨by decide, by decide,
   (draw_fade_decay fadeGrid 0 0 (by decide) (by decide)).2.2.2 (by decide)⟩

/-! ### C10: grids narrower than 3 collapse distinct neighbor offsets -/

/-- A 1×1 grid with its single cell alive. -/
def oneByOneLive : Grid := ⟨1, 1, fun _ _ => liveCell⟩

theorem wrap_collision_of_lt_three (n x : Nat) (h0 : 0 < n) (h3 : n < 3) :
    wrap n x (-1) = wrap n x 1 := by
  interval_cases n
  · unfold wrap
    simp [Int.emod_one]
  · unfold wrap
    have key : ((x : Int) + 1 + ((2 : Nat) : Int)) % ((2 : Nat) : Int)
        = ((x : Int) + (-1) + ((2 : Nat) : Int)) % ((2 : Nat) : Int) := by
      have h1 : (x : Int) + 1 + ((2 : Nat) : Int)
          = ((x : Int) + (-1) + ((2 : Nat) : Int)) + ((2 : Nat) : Int) * 1 := by
        push_cast; ring
      rw [h1, Int.add_mul_emod_self_left]
    rw [key]

/-- C10. On a grid with fewer than 3 columns, the offsets `-1` and `+1` wrap
to the same column (so distinct neighbor offsets address the same cell); on
the 1×1 grid the single live cell counts itself 8 times, giving neighbor
count 8, and it is dead after one step. -/
theorem small_grid_offset_collision :
    (∀ (n x : Nat), 0 < n → n < 3 → wrap n x (-1) = wrap n x 1) ∧
    countNeighbors oneByOneLive 0 0 = 8 ∧
    (∀ rnd : Nat → Nat → Nat, ((updateGrid rnd oneByOneLive).cells 0 0).alive = 0) := by
  refine ⟨wrap_collision_of_lt_three, by decide, ?_⟩
  intro rnd
  have h8 : countNeighbors oneByOneLive 0 0 = 8 := by decide
  have h : (updateGrid rnd oneByOneLive).cells 0 0 =
      { oneByOneLive.cells 0 0 with alive := 0, fade := 10 } := by
    rw [updateGrid_cells rnd oneByOneLive 0 0 (by decide) (by decide)]
    unfold stepCell
    rw [if_pos (by decide), if_pos (by omega)]
  rw [h]

theorem small_grid_offset_collision_witness :
    0 < 2 ∧ 2 < 3 ∧ wrap 2 7 (-1) = wrap 2 7 1 :=
  ⟨by decide, by decide, small_grid_offset_collision.1 2 7 (by decide) (by decide)⟩

/-! ### C9: cellSize resolution at initialization -/

/-- `const cellSize = options.cellSize || 10` (source line 4). JS `||` yields
its right operand exactly when the left operand is falsy; for a numeric
option the falsy value is 0 (an absent option, modelled `none`, is also
falsy). Any other number — negative values included — is kept as-is. -/
def resolveCellSize : Option Int → Int
  | none => 10
  | some v => if v = 0 then 10 else v

/-- `cols = Math.floor(canvas.width / cellSize)` (source line 23);
JS `Math.floor` rounds toward negative infinity, i.e. `Rat.floor`. -/
def colsOf (width : Nat) (cellSize : Int) : Int :=
  Int.floor ((width : Rat) / (cellSize : Rat))

/-- C9 counterexample: a configuration with `cellSize = -5` is not clamped to
a positive value — initialization keeps `-5` and the derived column count is
negative, so grid dimensions are not well-defined. -/
theorem cellSize_negative_not_clamped :
    resolveCellSize (some (-5)) = -5 ∧ ¬ 0 < resolveCellSize (some (-5)) ∧
    colsOf 100 (resolveCellSize (some (-5))) = -20 := by
  refine ⟨by decide, by decide, ?_⟩
  show colsOf 100 (-5) = -20
  unfold colsOf
  rw [show (((100 : Nat) : Rat) / ((-5 : Int) : Rat)) = ((-20 : Int) : Rat) by norm_num]
  exact Int.floor_intCast (-20)

/-- C9 (amended). Initialization replaces only a missing or zero `cellSize`
with the default 10; any nonzero value, including negative ones, is
propagated unchanged — equivalently, the resolved cell size is positive
exactly when the supplied value is nonnegative. -/
theorem cellSize_default_only_for_falsy :
    resolveCellSize none = 10 ∧ resolveCellSize (some 0) = 10 ∧
    (∀ v : Int, v ≠ 0 → resolveCellSize (some v) = v) ∧
    (∀ v : Int, 0 < resolveCellSize (some v) ↔ 0 ≤ v) := by
  refine ⟨rfl, by decide, ?_, ?_⟩
  · intro v hv
    simp [resolveCellSize, hv]
  · intro v
    by_cases hv : v = 0
    · simp [resolveCellSize, hv]
    · simp only [resolveCellSize, if_neg hv]
      omega

theorem cellSize_default_only_for_falsy_witness :
    (-5 : Int) ≠ 0 ∧ resolveCellSize (some (-5)) = -5 :=
  ⟨by decide, cellSize_default_only_for_falsy.2.2.1 (-5) (by decide)⟩


/-! ### C7: drag interaction — each cell edited at most once per gesture

The drag state of the source (lines 9-11): `isDragging`, `dragAction`
(`null` / `'add'` / `'remove'`, modelled `Option Bool` with `true = add`),
and `touchedCells` (a set of keys; modelled as a duplicate-free list, since
the source only inserts a key after checking `!touchedCells.has(key)`).
Pixel coordinates are rationals; the event point is taken already localized
to the canvas (the source subtracts `rect.left`/`rect.top` first). -/

structure InputState where
  isDragging : Bool
  dragAction : Option Bool
  touchedCells : List (Int × Int)
  grid : Grid

/-- Write one cell of the grid (the in-place `grid[col][row].… = …`
assignments of `toggleCell`). -/
def setCell (g : Grid) (cx cy : Nat) (c : Cell) : Grid :=
  { g with cells := fun x y => if x = cx ∧ y = cy then c else g.cells x y }

/-- Pixel-to-cell mapping of `toggleCell` (source lines 134-135):
`col = Math.floor(x / canvas.width * cols)`, and likewise for the row;
JS `Math.floor` rounds toward negative infinity, i.e. `Int.floor`. -/
def cellOfPoint (width height : Rat) (cols rows : Nat) (p : Rat × Rat) : Int × Int :=
  (Int.floor (p.1 / width * (cols : Rat)), Int.floor (p.2 / height * (rows : Rat)))

/-- The `dragAction` used for an edit (source lines 141-143): the action
already fixed for this gesture, or — on the gesture's first edit — `add`
(`true`) when the touched cell is dead and `remove` (`false`) when it is
alive (a truthiness test in the source). -/
def toggleAction (s : InputState) (key : Int × Int) : Bool :=
  match s.dragAction with
  | some a => a
  | none => if (s.grid.cells key.1.toNat key.2.toNat).alive ≠ 0 then false else true

/-- The edit applied to the grid (source lines 145-152): `add` makes the
cell alive with a fresh random color and `fade = 0`; `remove` makes it dead
with `fade = 10` (color untouched). -/
def applyAction (rnd : Nat → Nat → Nat) (g : Grid) (action : Bool) (key : Int × Int) : Grid :=
  if action then
    setCell g key.1.toNat key.2.toNat
      { g.cells key.1.toNat key.2.toNat with
          alive := 1, color := getRandomColor (rnd key.1.toNat key.2.toNat), fade := 0 }
  else
    setCell g key.1.toNat key.2.toNat
      { g.cells key.1.toNat key.2.toNat with alive := 0, fade := 10 }

/-- `toggleCell(event)` (source lines 129-154). Returns the new state and
the key of the cell edited, if any. The edit happens only when the key is
in bounds and not yet in `touchedCells`; an edit first records the key in
`touchedCells`, fixes `dragAction` if this is the gesture's first edit, and
then applies the action to the grid. -/
def toggleCell (rnd : Nat → Nat → Nat) (width height : Rat) (s : InputState)
    (p : Rat × Rat) : InputState × Option (Int × Int) :=
  if 0 ≤ (cellOfPoint width height s.grid.cols s.grid.rows p).1 ∧
      (cellOfPoint width height s.grid.cols s.grid.rows p).1 < (s.grid.cols : Int) ∧
      0 ≤ (cellOfPoint width height s.grid.cols s.grid.rows p).2 ∧
      (cellOfPoint width height s.grid.cols s.grid.rows p).2 < (s.grid.rows : Int) ∧
      cellOfPoint width height s.grid.cols s.grid.rows p ∉ s.touchedCells then
    (⟨s.isDragging,
      some (toggleAction s (cellOfPoint width height s.grid.cols s.grid.rows p)),
      cellOfPoint width height s.grid.cols s.grid.rows p :: s.touchedCells,
      applyAction rnd s.grid (toggleAction s (cellOfPoint width height s.grid.cols s.grid.rows p))
        (cellOfPoint width height s.grid.cols s.grid.rows p)⟩,
     some (cellOfPoint width height s.grid.cols s.grid.rows p))
  else
    (s, none)

/-- `mousedown` handler (source lines 174-178): start dragging, clear the
touched set, toggle at the pressed point. (`touchstart`, lines 191-196, is
identical on the first contact point.) -/
def onMouseDown (rnd : Nat → Nat → Nat) (width height : Rat) (s : InputState)
    (p : Rat × Rat) : InputState × Option (Int × Int) :=
  toggleCell rnd width height { s with isDragging := true, touchedCells := [] } p

/-- `mousemove` handler (source lines 180-182): toggle only while dragging. -/
def onMouseMove (rnd : Nat → Nat → Nat) (width height : Rat) (s : InputState)
    (p : Rat × Rat) : InputState × Option (Int × Int) :=
  if s.isDragging then toggleCell rnd width height s p else (s, none)

/-- `mouseup` handler (source lines 184-188): end the gesture, reset the
action, clear the touched set. -/
def onMouseUp (s : InputState) : InputState :=
  { s with isDragging := false, dragAction := none, touchedCells := [] }

/-- Process a list of move events, collecting the keys of the edited cells. -/
def runMoves (rnd : Nat → Nat → Nat) (width height : Rat) (s : InputState) :
    List (Rat × Rat) → InputState × List (Int × Int)
  | [] => (s, [])
  | p :: ps =>
    ((runMoves rnd width height (onMouseMove rnd width height s p).1 ps).1,
     (onMouseMove rnd width height s p).2.toList ++
       (runMoves rnd width height (onMouseMove rnd width height s p).1 ps).2)

/-- One full gesture: a `mousedown` at `p0`, then the `mousemove`s, then
`mouseup`; the second component lists the edited cells in order. -/
def runGesture (rnd : Nat → Nat → Nat) (width height : Rat) (s : InputState)
    (p0 : Rat × Rat) (moves : List (Rat × Rat)) : InputState × List (Int × Int) :=
  (onMouseUp (runMoves rnd width height (onMouseDown rnd width height s p0).1 moves).1,
   (onMouseDown rnd width height s p0).2.toList ++
     (runMoves rnd width height (onMouseDown rnd width height s p0).1 moves).2)

theorem toggleCell_shape (rnd : Nat → Nat → Nat) (width height : Rat)
    (s : InputState) (p : Rat × Rat) :
    ((toggleCell rnd width height s p).1 = s ∧
     (toggleCell rnd width height s p).2 = none) ∨
    (∃ k, k ∉ s.touchedCells ∧
      (toggleCell rnd width height s p).1.touchedCells = k :: s.touchedCells ∧
      (toggleCell rnd width height s p).2 = some k) := by
  unfold toggleCell
  split
  · next hc =>
    right
    exact ⟨cellOfPoint width height s.grid.cols s.grid.rows p, hc.2.2.2.2, rfl, rfl⟩
  · left
    exact ⟨rfl, rfl⟩

/-- Re-visiting an already-touched cell leaves the state unchanged and edits
nothing (the `!touchedCells.has(key)` guard, source line 138). -/
theorem toggleCell_mem_noop (rnd : Nat → Nat → Nat) (width height : Rat)
    (s : InputState) (p : Rat × Rat)
    (hmem : cellOfPoint width height s.grid.cols s.grid.rows p ∈ s.touchedCells) :
    toggleCell rnd width height s p = (s, none) := by
  unfold toggleCell
  rw [if_neg]
  intro hc
  exact hc.2.2.2.2 hmem

theorem count_le_one_of_nodup {α : Type} [BEq α] [LawfulBEq α] {l : List α}
    (h : l.Nodup) (a : α) : l.count a ≤ 1 := by
  induction l with
  | nil => simp
  | cons b l ih =>
    have hb : b ∉ l := (List.nodup_cons.mp h).1
    have hl : l.Nodup := (List.nodup_cons.mp h).2
    rw [List.count_cons]
    by_cases hab : b == a
    · have hba : b = a := eq_of_beq hab
      have h0 : l.count a = 0 := List.count_eq_zero.mpr (hba ▸ hb)
      simp [h0, hab]
    · simp only [hab, if_false]
      simpa using ih hl

theorem runMoves_inv (rnd : Nat → Nat → Nat) (width height : Rat) :
    ∀ (moves : List (Rat × Rat)) (s : InputState),
      (runMoves rnd width height s moves).2.Nodup ∧
      (∀ k ∈ (runMoves rnd width height s moves).2, k ∉ s.touchedCells) ∧
      (∀ k ∈ s.touchedCells, k ∈ (runMoves rnd width height s moves).1.touchedCells) := by
  intro moves
  induction moves with
  | nil =>
    intro s
    refine ⟨List.nodup_nil, ?_, ?_⟩
    · intro k hk
      simp [runMoves] at hk
    · intro k hk
      simpa [runMoves] using hk
  | cons p ps ih =>
    intro s
    by_cases hd : s.isDragging
    · rcases toggleCell_shape rnd width height s p with ⟨h1, h2⟩ | ⟨k, hk, ht, he⟩
      · have hmove : onMouseMove rnd width height s p = (s, none) := by
          unfold onMouseMove
          rw [if_pos hd]
          exact Prod.ext_iff.mpr ⟨h1, h2⟩
        simp only [runMoves, hmove, Option.toList_none, List.nil_append]
        exact ih s
      · have hm1 : (onMouseMove rnd width height s p).1 =
            (toggleCell rnd width height s p).1 := by
          unfold onMouseMove
          rw [if_pos hd]
        have hm2 : (onMouseMove rnd width height s p).2 = some k := by
          unfold onMouseMove
          rw [if_pos hd]
          exact he
        obtain ⟨ihn, ihf, ihs⟩ := ih (toggleCell rnd width height s p).1
        have hkmem : k ∈ (toggleCell rnd width height s p).1.touchedCells := by
          rw [ht]
          exact List.mem_cons_self k _
        simp only [runMoves, hm1, hm2, Option.toList_some, List.singleton_append]
        refine ⟨?_, ?_, ?_⟩
        · refine List.nodup_cons.mpr ⟨?_, ihn⟩
          intro hkin
          exact ihf k hkin hkmem
        · intro k' hk'
          rcases List.mem_cons.mp hk' with rfl | hk'
          · exact hk
          · intro hins
            exact ihf k' hk' (by rw [ht]; exact List.mem_cons_of_mem _ hins)
        · intro k' hk'
          exact ihs k' (by rw [ht]; exact List.mem_cons_of_mem _ hk')
    · have hmove : onMouseMove rnd width height s p = (s, none) := by
        unfold onMouseMove
        rw [if_neg hd]
      simp only [runMoves, hmove, Option.toList_none, List.nil_append]
      exact ih s

theorem runGesture_nodup (rnd : Nat → Nat → Nat) (width height : Rat)
    (s : InputState) (p0 : Rat × Rat) (moves : List (Rat × Rat)) :
    (runGesture rnd width height s p0 moves).2.Nodup := by
  unfold runGesture onMouseDown
  rcases toggleCell_shape rnd width height
      { s with isDragging := true, touchedCells := [] } p0 with ⟨h1, h2⟩ | ⟨k, hk, ht, he⟩
  · simp only [h2, Option.toList_none, List.nil_append]
    exact (runMoves_inv rnd width height moves _).1
  · obtain ⟨ihn, ihf, ihs⟩ := runMoves_inv rnd width height moves
      (toggleCell rnd width height { s with isDragging := true, touchedCells := [] } p0).1
    have hkmem : k ∈ (toggleCell rnd width height
        { s with isDragging := true, touchedCells := [] } p0).1.touchedCells := by
      rw [ht]
      exact List.mem_cons_self k _
    simp only [he, Option.toList_some, List.singleton_append]
    refine List.nodup_cons.mpr ⟨?_, ihn⟩
    intro hkin
    exact ihf k hkin hkmem

/-- An all-dead 10×10 grid for the concrete gesture. -/
def tenGrid : Grid := ⟨10, 10, fun _ _ => deadCell⟩

/-- The idle interaction state over `tenGrid`. -/
def initInput : InputState := ⟨false, none, [], tenGrid⟩

/-- The state right after `mousedown` at the pressed point but before any
move: dragging, action fixed to `add`, the pressed cell `(0,0)` touched and
made alive. -/
def gestureMid : InputState :=
  ⟨true, some true, [(0, 0)],
   setCell tenGrid 0 0
     { tenGrid.cells 0 0 with alive := 1, color := getRandomColor (rnd0 0 0), fade := 0 }⟩

theorem cellOfPoint_concrete : cellOfPoint 100 100 10 10 (5, 5) = (0, 0) := by
  unfold cellOfPoint
  norm_num

theorem toggleCell_concrete_down :
    toggleCell rnd0 100 100 ⟨true, none, [], tenGrid⟩ (5, 5) = (gestureMid, some (0, 0)) := by
  unfold toggleCell
  rw [show cellOfPoint 100 100 (InputState.mk true none [] tenGrid).grid.cols
        (InputState.mk true none [] tenGrid).grid.rows (5, 5) = (0, 0) from cellOfPoint_concrete]
  rw [if_pos ⟨by decide, by decide, by decide, by decide, by decide⟩]
  rfl

theorem toggleCell_concrete_move :
    toggleCell rnd0 100 100 gestureMid (5, 5) = (gestureMid, none) := by
  refine toggleCell_mem_noop rnd0 100 100 gestureMid (5, 5) ?_
  rw [show cellOfPoint 100 100 gestureMid.grid.cols gestureMid.grid.rows (5, 5) = (0, 0)
        from cellOfPoint_concrete]
  exact List.mem_singleton.mpr rfl

theorem runMoves_concrete (n : Nat) :
    runMoves rnd0 100 100 gestureMid (List.replicate n (5, 5)) = (gestureMid, []) := by
  induction n with
  | zero => rfl
  | succ n ih =>
    show runMoves rnd0 100 100 gestureMid ((5, 5) :: List.replicate n (5, 5)) = _
    have hmove : onMouseMove rnd0 100 100 gestureMid (5, 5) = (gestureMid, none) := by
      unfold onMouseMove
      rw [if_pos (show gestureMid.isDragging = true from rfl)]
      exact toggleCell_concrete_move
    simp only [runMoves, hmove, ih, Option.toList_none, List.nil_append]

/-- C7. Within one gesture (a start event, then any sequence of move events,
then the end event) every cell is edited at most once; concretely, a gesture
on a 100×100 canvas over a 10×10 grid whose five move events all revisit the
pressed cell produces exactly one edit. -/
theorem gesture_single_edit :
    (∀ (rnd : Nat → Nat → Nat) (width height : Rat) (s : InputState)
        (p0 : Rat × Rat) (moves : List (Rat × Rat)) (k : Int × Int),
      (runGesture rnd width height s p0 moves).2.count k ≤ 1) ∧
    (runGesture rnd0 100 100 initInput (5, 5) (List.replicate 5 (5, 5))).2 = [(0, 0)] := by
  constructor
  · intro rnd width height s p0 moves k
    exact count_le_one_of_nodup (runGesture_nodup rnd width height s p0 moves) k
  · have hdown : onMouseDown rnd0 100 100 initInput (5, 5) = (gestureMid, some (0, 0)) := by
      unfold onMouseDown
      exact toggleCell_concrete_down
    unfold runGesture
    rw [hdown]
    rw [runMoves_concrete 5]
    rfl

/-! ### C8: the simulation loop rate-limits `step` and draws every frame -/

/-- `const updateInterval = 50` (source line 158). -/
def updateInterval : Int := 50

/-- The loop state: the grid, `lastUpdateTime` (source line 157, initially
0), and a counter of `drawGrid` invocations used to observe that every
frame signal draws. -/
structure LoopState where
  grid : Grid
  lastUpdateTime : Int
  drawCount : Nat

/-- `gameLoop(timestamp)` (source lines 160-171): `!lastUpdateTime` (i.e.
`lastUpdateTime == 0`) first sets `lastUpdateTime` to the timestamp; if the
elapsed time since `lastUpdateTime` is at least `updateInterval`, run
`updateGrid` and advance `lastUpdateTime`; then always run `drawGrid`.
Returns the new state and whether `updateGrid` was invoked on this tick. -/
def tick (rnd : Nat → Nat → Nat) (s : LoopState) (t : Int) : LoopState × Bool :=
  if updateInterval ≤ t - (if s.lastUpdateTime = 0 then t else s.lastUpdateTime) then
    (⟨drawGrid (updateGrid rnd s.grid), t, s.drawCount + 1⟩, true)
  else
    (⟨drawGrid s.grid, if s.lastUpdateTime = 0 then t else s.lastUpdateTime,
      s.drawCount + 1⟩, false)

/-- Run the loop over a list of frame timestamps, tracing for each tick the
timestamp and whether `updateGrid` ran. -/
def runLoop (rnd : Nat → Nat → Nat) (s : LoopState) : List Int → LoopState × List (Int × Bool)
  | [] => (s, [])
  | t :: ts =>
    ((runLoop rnd (tick rnd s t).1 ts).1,
     (t, (tick rnd s t).2) :: (runLoop rnd (tick rnd s t).1 ts).2)

theorem tick_cases (rnd : Nat → Nat → Nat) (s : LoopState) (t : Int) :
    (updateInterval ≤ t - (if s.lastUpdateTime = 0 then t else s.lastUpdateTime) ∧
     tick rnd s t = (⟨drawGrid (updateGrid rnd s.grid), t, s.drawCount + 1⟩, true)) ∨
    (¬ updateInterval ≤ t - (if s.lastUpdateTime = 0 then t else s.lastUpdateTime) ∧
     tick rnd s t = (⟨drawGrid s.grid, if s.lastUpdateTime = 0 then t else s.lastUpdateTime,
       s.drawCount + 1⟩, false)) := by
  by_cases hc : updateInterval ≤ t - (if s.lastUpdateTime = 0 then t else s.lastUpdateTime)
  · left
    exact ⟨hc, by unfold tick; rw [if_pos hc]⟩
  · right
    exact ⟨hc, by unfold tick; rw [if_neg hc]⟩

theorem tick_drawCount (rnd : Nat → Nat → Nat) (s : LoopState) (t : Int) :
    (tick rnd s t).1.drawCount = s.drawCount + 1 := by
  rcases tick_cases rnd s t with ⟨_, he⟩ | ⟨_, he⟩ <;> rw [he]

theorem tick_lut_mem (rnd : Nat → Nat → Nat) (s : LoopState) (t : Int) :
    (tick rnd s t).1.lastUpdateTime = t ∨
    (tick rnd s t).1.lastUpdateTime = s.lastUpdateTime := by
  rcases tick_cases rnd s t with ⟨_, he⟩ | ⟨_, he⟩
  · left
    rw [he]
  · rw [he]
    by_cases h0 : s.lastUpdateTime = 0
    · left
      show (if s.lastUpdateTime = 0 then t else s.lastUpdateTime) = t
      rw [if_pos h0]
    · right
      show (if s.lastUpdateTime = 0 then t else s.lastUpdateTime) = s.lastUpdateTime
      rw [if_neg h0]

theorem tick_stepped_lut (rnd : Nat → Nat → Nat) (s : LoopState) (t : Int)
    (h : (tick rnd s t).2 = true) : (tick rnd s t).1.lastUpdateTime = t := by
  rcases tick_cases rnd s t with ⟨_, he⟩ | ⟨_, he⟩
  · rw [he]
  · rw [he] at h
    exact absurd h (by simp)

theorem tick_step_bound (rnd : Nat → Nat → Nat) (s : LoopState) (t : Int)
    (h : (tick rnd s t).2 = true) : s.lastUpdateTime + updateInterval ≤ t := by
  have h50 : updateInterval = 50 := rfl
  rcases tick_cases rnd s t with ⟨hc, he⟩ | ⟨_, he⟩
  · by_cases h0 : s.lastUpdateTime = 0
    · rw [if_pos h0] at hc
      omega
    · rw [if_neg h0] at hc
      omega
  · rw [he] at h
    exact absurd h (by simp)

theorem runLoop_inv (rnd : Nat → Nat → Nat) :
    ∀ (ts : List Int) (s : LoopState),
      ts.Chain' (· < ·) →
      (∀ t ∈ ts, s.lastUpdateTime ≤ t) →
      ((runLoop rnd s ts).1.drawCount = s.drawCount + ts.length) ∧
      (∀ e ∈ (runLoop rnd s ts).2, e.2 = true →
        s.lastUpdateTime + updateInterval ≤ e.1) ∧
      ((runLoop rnd s ts).2.Pairwise fun a b => a.2 = true → b.2 = true →
        a.1 + updateInterval ≤ b.1) := by
  intro ts
  induction ts with
  | nil =>
    intro s _ _
    exact ⟨by simp [runLoop], by simp [runLoop], by simp [runLoop]⟩
  | cons t ts ih =>
    intro s hchain hle
    have hchain2 : ts.Chain' (· < ·) := hchain.tail
    have httail : ∀ u ∈ ts, t < u :=
      (List.pairwise_cons.mp ((List.chain'_iff_pairwise).mp hchain)).1
    have hs2 : ∀ u ∈ ts, (tick rnd s t).1.lastUpdateTime ≤ u := by
      intro u hu
      rcases tick_lut_mem rnd s t with h | h
      · rw [h]
        exact le_of_lt (httail u hu)
      · rw [h]
        exact hle u (List.mem_cons_of_mem _ hu)
    obtain ⟨ihd, ihstep, ihpw⟩ := ih (tick rnd s t).1 hchain2 hs2
    refine ⟨?_, ?_, ?_⟩
    · show (runLoop rnd (tick rnd s t).1 ts).1.drawCount = s.drawCount + (t :: ts).length
      rw [ihd, tick_drawCount]
      simp only [List.length_cons]
      omega
    · intro e he hstep
      rcases List.mem_cons.mp he with rfl | he2
      · exact tick_step_bound rnd s t hstep
      · have h1 := ihstep e he2 hstep
        have h2 : s.lastUpdateTime ≤ (tick rnd s t).1.lastUpdateTime := by
          rcases tick_lut_mem rnd s t with h | h
          · rw [h]
            exact hle t (List.mem_cons_self _ _)
          · rw [h]
        omega
    · show ((t, (tick rnd s t).2) :: (runLoop rnd (tick rnd s t).1 ts).2).Pairwise _
      refine List.pairwise_cons.mpr ⟨?_, ihpw⟩
      intro e he hstept hstepe
      have hlut := tick_stepped_lut rnd s t hstept
      have h1 := ihstep e he hstepe
      rw [hlut] at h1
      exact h1

/-- C8. For monotonically increasing, positive frame timestamps, the
simulation loop draws on every frame signal (`drawCount` equals the number
of ticks), invokes `updateGrid` only when at least `updateInterval` (50)
time-units have elapsed since the last transition — so the timestamps of
any two transitions differ by at least 50 — and a transition can never
happen before time `updateInterval`. -/
theorem loop_rate_decoupling (rnd : Nat → Nat → Nat) (g : Grid) (ts : List Int)
    (hmono : ts.Chain' (· < ·)) (hpos : ∀ t ∈ ts, 0 < t) :
    (runLoop rnd ⟨g, 0, 0⟩ ts).1.drawCount = ts.length ∧
    (∀ e ∈ (runLoop rnd ⟨g, 0, 0⟩ ts).2, e.2 = true → updateInterval ≤ e.1) ∧
    ((runLoop rnd ⟨g, 0, 0⟩ ts).2.Pairwise fun a b => a.2 = true → b.2 = true →
      a.1 + updateInterval ≤ b.1) := by
  obtain ⟨h1, h2, h3⟩ := runLoop_inv rnd ts ⟨g, 0, 0⟩ hmono
    (fun t ht => le_of_lt (hpos t ht))
  refine ⟨by simpa using h1, ?_, h3⟩
  intro e he hstep
  have h4 := h2 e he hstep
  simpa using h4

theorem loop_rate_decoupling_witness :
    List.Chain' (· < ·) ([16, 32, 48, 64, 80, 96] : List Int) ∧
    (runLoop rnd0 ⟨tenGrid, 0, 0⟩ [16, 32, 48, 64, 80, 96]).1.drawCount = 6 ∧
    ((runLoop rnd0 ⟨tenGrid, 0, 0⟩ [16, 32, 48, 64, 80, 96]).2.Pairwise fun a b =>
      a.2 = true → b.2 = true → a.1 + updateInterval ≤ b.1) := by
  have h := loop_rate_decoupling rnd0 tenGrid [16, 32, 48, 64, 80, 96]
    (by norm_num [List.chain'_cons]) (by decide)
  exact ⟨by norm_num [List.chain'_cons], by simpa using h.1, h.2.2⟩

end GameOfLife
